import Mathlib

/-!
Verification of the Ravel director reconciliation engine
(src/pkg/director/director.go) against its specification.

The Go code is shallowly embedded as pure Lean functions.  Collaborator
calls (IP, IPVS, IPTables, Metrics) are modelled by an environment `Env`
that fixes the outcome of every collaborator call, and each embedded
function returns the ordered trace of collaborator calls, metric samples,
file writes and log lines it performs (`List Event`) together with the
`Option String` error it returns (`none` = Go `nil`).
-/

namespace Director

/-- The colocation mode constants of director.go. -/
def colocationModeDisabled : String := "disabled"

/-- The iptables colocation mode constant of director.go. -/
def colocationModeIPTables : String := "iptables"

/-- The ipvs colocation mode constant of director.go. -/
def colocationModeIPVS : String := "ipvs"

/-- An observable action of the director: a collaborator call, a metric
sample, a file write or a log line, in program order. -/
inductive Event where
  | ipGet : Event
  | checkConfigParity (addrs : List String) : Event
  | ipDel (addr : String) : Event
  | ipAdd (addr : String) : Event
  | advertiseMacAddress (addr : String) : Event
  | setMTU : Event
  | iptSave : Event
  | iptGenerate : Event
  | iptMerge : Event
  | iptRestore : Event
  | iptFlush : Event
  | ipTeardown : Event
  | ipvsTeardown : Event
  | setIPVS : Event
  | reconfigureMetric (label : String) : Event
  | iptablesWriteFailureMetric (v : Nat) : Event
  | writeFile (path : String) (content : String) (mode : Nat) : Event
  | logLine (msg : String) : Event
  deriving DecidableEq

/-- Outcomes of every collaborator call an apply can make.  Rules are kept
abstract as `List String`; errors are the Go error messages. -/
structure Env where
  /-- the v4 addresses returned by IP.Get -/
  getV4 : List String
  /-- the v6 addresses returned by IP.Get -/
  getV6 : List String
  /-- the error returned by IP.Get -/
  getErr : Option String
  /-- the keys of watcher.ClusterConfig.Config (the desired VIP set) -/
  configKeys : List String
  /-- outcome of IPVS.CheckConfigParity on a given address list: (same, err) -/
  parity : List String → Bool × Option String
  /-- outcome of IP.Compare4: (removals, additions) -/
  compare4 : List String → List String → List String × List String
  /-- outcome of IP.Del per address -/
  delErr : String → Option String
  /-- outcome of IP.Add per address -/
  addErr : String → Option String
  /-- outcome of IP.AdvertiseMacAddress per address -/
  advertiseErr : String → Option String
  /-- outcome of IP.SetMTU -/
  mtuErr : Option String
  /-- outcome of IPTables.Save -/
  saveRes : Except String (List String)
  /-- outcome of IPTables.GenerateRulesForNodeClassic -/
  generateRes : Except String (List String)
  /-- outcome of IPTables.Merge on (generated, existing) -/
  mergeRes : List String → List String → Except String (List String)
  /-- outcome of IPTables.Restore on the merged rules -/
  restoreErr : List String → Option String
  /-- IPTables.BytesFromRules, as a string of bytes -/
  bytesFromRules : List String → String
  /-- outcome of the ioutil.WriteFile call of setIPTables -/
  writeFileErr : Option String
  /-- outcome of IPVS.SetIPVS -/
  setIPVSErr : Option String
  /-- the colocation mode of the director -/
  colocationMode : String

/-- createErrorLog of director.go: prefix the rule bytes with the restore
error message when there is one. -/
def createErrorLog (err : Option String) (rules : String) : String :=
  match err with
  | none => rules
  | some e => "ipvs restore error: " ++ e ++ "\n" ++ rules

/-- The removal loop of setAddresses: log and IP.Del each address; a Del
error is returned at once, abandoning the rest of the loop. -/
def processRemovals (env : Env) : List String → List Event × Option String
  | [] => ([], none)
  | addr :: rest =>
    match env.delErr addr with
    | some e => ([Event.logLine ("deleting " ++ addr), Event.ipDel addr], some e)
    | none =>
      let (tr, r) := processRemovals env rest
      (Event.logLine ("deleting " ++ addr) :: Event.ipDel addr :: tr, r)

/-- The events of one iteration of the addition loop of setAddresses:
log, IP.Add (an error is only logged), then IP.AdvertiseMacAddress
(an error is only logged). -/
def additionEvents (env : Env) (addr : String) : List Event :=
  [Event.logLine ("adding " ++ addr)] ++
  (match env.addErr addr with
   | some e => [Event.ipAdd addr,
                Event.logLine ("director: error adding adapter: " ++ addr ++ " " ++ e)]
   | none => [Event.ipAdd addr]) ++
  (match env.advertiseErr addr with
   | some e => [Event.advertiseMacAddress addr,
                Event.logLine ("director: error setting gratuitous arp. this is most likely due to the VIP not being present on the interface. " ++ e)]
   | none => [Event.advertiseMacAddress addr])

/-- The addition loop of setAddresses.  The Go loop body never returns, so
the embedding produces a trace and no error. -/
def processAdditions (env : Env) : List String → List Event
  | [] => []
  | addr :: rest => additionEvents env addr ++ processAdditions env rest

/-- The events of the final IP.SetMTU call of setAddresses: an error is
only logged. -/
def mtuEvents (env : Env) : List Event :=
  match env.mtuErr with
  | some e => [Event.setMTU, Event.logLine ("director: error setting MTU on adapters: " ++ e)]
  | none => [Event.setMTU]

/-- setAddresses of director.go: IP.Get (fatal on error), diff via
IP.Compare4, delete removals (fatal on error), add additions and advertise
each (errors only logged), then IP.SetMTU (error only logged). -/
def setAddresses (env : Env) : List Event × Option String :=
  match env.getErr with
  | some e => ([Event.ipGet], some e)
  | none =>
    let (removals, additions) := env.compare4 env.getV4 env.configKeys
    let (remTrace, remErr) := processRemovals env removals
    match remErr with
    | some e => (Event.ipGet :: remTrace, some e)
    | none =>
      (Event.ipGet :: (remTrace ++ processAdditions env additions ++ mtuEvents env), none)

/-- setIPTables of director.go: Save, GenerateRulesForNodeClassic, Merge,
Restore; on Restore failure set the IptablesWriteFailure gauge to 1, write
the annotated ruleset to /tmp/director-ruleset-err with mode 0644 (a write
failure is only logged) and return the Restore error; on success set the
gauge to 0. -/
def setIPTables (env : Env) : List Event × Option String :=
  match env.saveRes with
  | Except.error e => ([Event.iptSave], some e)
  | Except.ok existing =>
    match env.generateRes with
    | Except.error e => ([Event.iptSave, Event.iptGenerate], some e)
    | Except.ok generated =>
      match env.mergeRes generated existing with
      | Except.error e => ([Event.iptSave, Event.iptGenerate, Event.iptMerge], some e)
      | Except.ok merged =>
        match env.restoreErr merged with
        | some e =>
          ([Event.iptSave, Event.iptGenerate, Event.iptMerge, Event.iptRestore,
            Event.iptablesWriteFailureMetric 1,
            Event.logLine "error applying rules. writing erroneous rule change to /tmp/director-ruleset-err for debugging",
            Event.writeFile "/tmp/director-ruleset-err"
              (createErrorLog (some e) (env.bytesFromRules merged)) 0o644] ++
           (match env.writeFileErr with
            | some _ => [Event.logLine ("error writing to file; logging rules: " ++ env.bytesFromRules merged)]
            | none => []), some e)
        | none =>
          ([Event.iptSave, Event.iptGenerate, Event.iptMerge, Event.iptRestore,
            Event.iptablesWriteFailureMetric 0], none)

/-- The IPVS step at the end of applyConf: IPVS.SetIPVS, then the
Reconfigure metric sample ("error" or "complete"). -/
def ipvsStep (env : Env) (tr : List Event) : List Event × Option String :=
  match env.setIPVSErr with
  | some e => (tr ++ [Event.setIPVS, Event.reconfigureMetric "error"],
               some ("director: unable to configure ipvs with error " ++ e))
  | none => (tr ++ [Event.setIPVS, Event.reconfigureMetric "complete"], none)

/-- The post-parity tail of applyConf: setAddresses (fatal on error, metric
"error"), then setIPTables when colocated in iptables mode (fatal on error,
metric "error"), then the IPVS step. -/
def applyPipeline (env : Env) : List Event × Option String :=
  let (aTrace, aErr) := setAddresses env
  match aErr with
  | some e => (aTrace ++ [Event.reconfigureMetric "error"],
               some ("director: unable to configure VIP addresses with error " ++ e))
  | none =>
    if env.colocationMode = colocationModeIPTables then
      let (iTrace, iErr) := setIPTables env
      match iErr with
      | some e => (aTrace ++ iTrace ++ [Event.reconfigureMetric "error"],
                   some ("director: unable to configure iptables with error " ++ e))
      | none => ipvsStep env (aTrace ++ iTrace)
    else ipvsStep env aTrace

/-- applyConf of director.go.  With force the parity check is skipped.
Without force: IP.Get (an error is only logged), then
IPVS.CheckConfigParity on the concatenated v4 and v6 addresses; a parity
error is fatal with metric "error"; parity `same` records metric "noop"
and returns nil; otherwise the pipeline runs. -/
def applyConf (env : Env) (force : Bool) : List Event × Option String :=
  if force then
    let (tr, r) := applyPipeline env
    (Event.logLine "director: configuration parity ignored" :: tr, r)
  else
    let getTrace := Event.ipGet ::
      (match env.getErr with
       | some e => [Event.logLine ("director: error creating interface: " ++ e)]
       | none => [])
    let addresses := env.getV4 ++ env.getV6
    match env.parity addresses with
    | (_, some e) =>
      (getTrace ++ [Event.checkConfigParity addresses, Event.reconfigureMetric "error"],
       some ("director: unable to compare configurations with error " ++ e))
    | (true, none) =>
      (getTrace ++ [Event.checkConfigParity addresses, Event.reconfigureMetric "noop"], none)
    | (false, none) =>
      let (tr, r) := applyPipeline env
      (getTrace ++ [Event.checkConfigParity addresses] ++ tr, r)

/-- Outcomes of the three teardown calls the cleanup routine makes. -/
structure CleanupEnv where
  /-- outcome of IPTables.Flush -/
  flushErr : Option String
  /-- outcome of IP.Teardown over the configured V4 and V6 VIPs -/
  ipTeardownErr : Option String
  /-- outcome of IPVS.Teardown -/
  ipvsTeardownErr : Option String

/-- Go renders a []string with the %v verb of fmt as the elements between brackets,
separated by single spaces. -/
def renderGoStringSlice (l : List String) : String :=
  "[" ++ String.intercalate " " l ++ "]"

/-- The error strings the cleanup routine accumulates, one per failing
teardown call, in program order. -/
def cleanupErrs (env : CleanupEnv) : List String :=
  (match env.flushErr with
   | some e => ["cleanup - failed to flush iptables - " ++ e]
   | none => []) ++
  (match env.ipTeardownErr with
   | some e => ["cleanup - failed to remove ip addresses - " ++ e]
   | none => []) ++
  (match env.ipvsTeardownErr with
   | some e => ["cleanup - failed to remove existing ipvs config - " ++ e]
   | none => [])

/-- cleanup of director.go: flush iptables, tear down the configured
addresses, tear down IPVS — all three are always called — and return nil
when nothing failed, otherwise one error rendering the accumulated list. -/
def cleanup (env : CleanupEnv) : List Event × Option String :=
  ([Event.iptFlush, Event.ipTeardown, Event.ipvsTeardown],
   if cleanupErrs env = [] then none
   else some ("director: " ++ renderGoStringSlice (cleanupErrs env)))

/-- Outcomes of the collaborator calls Start makes. -/
structure StartEnv where
  /-- outcome of IP.SetARP -/
  setARPErr : Option String
  /-- outcome of the initial IPTables.Flush -/
  flushErr : Option String

/-- The director fields the lifecycle claims depend on.  `hasCxlWatch`
records whether the cxlWatch cancel function has been assigned (it is nil
until Start assigns it); `watchCancelled` records whether it has been
invoked. -/
structure DirectorState where
  isStarted : Bool
  reconfiguring : Bool
  hasCxlWatch : Bool
  watchCancelled : Bool
  colocationMode : String
  doCleanup : Bool
  deriving DecidableEq

/-- NewDirector of director.go: every lifecycle field starts zeroed; in
particular no cancel function is assigned. -/
def newDirector (colocationMode : String) (doCleanup : Bool) : DirectorState :=
  { isStarted := false, reconfiguring := false, hasCxlWatch := false,
    watchCancelled := false, colocationMode := colocationMode, doCleanup := doCleanup }

/-- Start of director.go: refuse when already started or reconfiguring;
otherwise set isStarted, apply the ARP sysctls (fatal), flush iptables
unless colocated in iptables mode (fatal), assign the watch cancel
function and spawn the loops.  The deferred setReconfiguring(false) runs on
every return, so reconfiguring is false again in the returned state; note
that a mid-Start failure returns with isStarted already true. -/
def Start (env : StartEnv) (d : DirectorState) : DirectorState × Option String :=
  if d.isStarted then
    (d, some "director: director has already been started. a director instance can only be started once")
  else if d.reconfiguring then
    (d, some "director: unable to Start. reconfiguration already in progress")
  else
    let d1 : DirectorState := { d with isStarted := true }
    match env.setARPErr with
    | some e => (d1, some ("director: cleanup - failed to clear arp rules - " ++ e))
    | none =>
      match (if d1.colocationMode ≠ colocationModeIPTables then env.flushErr else none) with
      | some e => (d1, some ("director: cleanup - failed to flush iptables - " ++ e))
      | none => ({ d1 with hasCxlWatch := true }, none)

/-- The possible outcomes of Stop: a synchronous refusal, the run-time
panic of calling a nil function value, or a normal return carrying the
cleanup error if any. -/
inductive StopOutcome where
  | refused (msg : String) : StopOutcome
  | nilFunctionPanic : StopOutcome
  | ok (err : Option String) : StopOutcome
  deriving DecidableEq

/-- Stop of director.go: refuse while reconfiguring; otherwise invoke
d.cxlWatch() unconditionally — a nil-function panic when Start has never
assigned it — wait for the periodic loop, run cleanup when doCleanup is
set, clear isStarted and return. -/
def Stop (env : CleanupEnv) (d : DirectorState) : DirectorState × StopOutcome :=
  if d.reconfiguring then
    (d, StopOutcome.refused "director: unable to Stop. reconfiguration already in progress")
  else if d.hasCxlWatch = false then
    (d, StopOutcome.nilFunctionPanic)
  else
    let d1 : DirectorState := { d with watchCancelled := true }
    if d1.doCleanup then
      let (_, cerr) := cleanup env
      ({ d1 with isStarted := false }, StopOutcome.ok cerr)
    else
      ({ d1 with isStarted := false }, StopOutcome.ok none)

/-- The program points of the causePeriodicWatcherSync goroutine: about to
send on nodeChan (or blocked in that send), waiting on the ticker, or
returned from the function.  The loop body is a send followed by a ticker
receive; the body contains no case for either context being done. -/
inductive PumpPoint where
  | sending : PumpPoint
  | ticking : PumpPoint
  | exited : PumpPoint
  deriving DecidableEq

/-- The pump goroutine together with the capacity-1 nodeChan buffer. -/
structure PumpState where
  pc : PumpPoint
  chanFull : Bool
  deriving DecidableEq

/-- One scheduling step of causePeriodicWatcherSync, parameterised by
whether the watch context has been cancelled.  While the context is live
the watch loop drains nodeChan, so a send completes; after cancellation
the watch loop has returned, so a send onto a full buffer blocks forever.
No transition reaches `exited`: the loop body has no return, break, or
select on a done channel. -/
def pumpStep (cancelled : Bool) (s : PumpState) : PumpState :=
  match s.pc with
  | PumpPoint.exited => s
  | PumpPoint.ticking => { s with pc := PumpPoint.sending }
  | PumpPoint.sending =>
    if s.chanFull then
      if cancelled then s
      else { pc := PumpPoint.ticking, chanFull := true }
    else { pc := PumpPoint.ticking, chanFull := true }

/-- Iterated pump steps. -/
def pumpRun (cancelled : Bool) (s : PumpState) : Nat → PumpState
  | 0 => s
  | n + 1 => pumpStep cancelled (pumpRun cancelled s n)

/-- The goroutine starts at the top of the loop with an empty channel. -/
def pumpStart : PumpState := { pc := PumpPoint.sending, chanFull := false }

/-- The pump loop eventually exits, in the given cancellation state. -/
def pumpEverExits (cancelled : Bool) : Prop :=
  ∃ n, (pumpRun cancelled pumpStart n).pc = PumpPoint.exited

/-- The mutating collaborator calls: IP.Add, IP.Del, IP.SetMTU,
IPTables.Restore, IPTables.Flush, the teardowns and IPVS.SetIPVS. -/
def Event.isMutating : Event → Bool
  | Event.ipAdd _ => true
  | Event.ipDel _ => true
  | Event.setMTU => true
  | Event.iptRestore => true
  | Event.iptFlush => true
  | Event.ipTeardown => true
  | Event.ipvsTeardown => true
  | Event.setIPVS => true
  | _ => false

/-- The labels of the Reconfigure metric samples of a trace, in order. -/
def metricLabels (tr : List Event) : List String :=
  tr.filterMap fun e =>
    match e with
    | Event.reconfigureMetric l => some l
    | _ => none

/-- Whether a trace contains a call to IPVS.CheckConfigParity. -/
def hasParityCheck (tr : List Event) : Bool :=
  tr.any fun e =>
    match e with
    | Event.checkConfigParity _ => true
    | _ => false

/-- A concrete environment in which every collaborator call succeeds and
the parity check reports parity. -/
def envNoop : Env :=
  { getV4 := ["10.0.0.1"], getV6 := [], getErr := none,
    configKeys := ["10.0.0.1"],
    parity := fun _ => (true, none),
    compare4 := fun _ _ => ([], []),
    delErr := fun _ => none, addErr := fun _ => none,
    advertiseErr := fun _ => none, mtuErr := none,
    saveRes := Except.ok [], generateRes := Except.ok [],
    mergeRes := fun _ _ => Except.ok [], restoreErr := fun _ => none,
    bytesFromRules := fun _ => "", writeFileErr := none,
    setIPVSErr := none, colocationMode := colocationModeDisabled }

/-- C1: a non-forced applyConf in which CheckConfigParity reports parity
returns success, records exactly one Reconfigure metric sample, labelled
"noop", and performs no mutating collaborator call: no IP.Add, IP.Del or
IP.SetMTU, no IPTables.Restore, no IPVS.SetIPVS. -/
theorem applyConf_noop_frame (env : Env)
    (h : env.parity (env.getV4 ++ env.getV6) = (true, none)) :
    (applyConf env false).2 = none ∧
    metricLabels (applyConf env false).1 = ["noop"] ∧
    ∀ e ∈ (applyConf env false).1, Event.isMutating e = false := by
  cases hget : env.getErr <;>
    simp [applyConf, h, hget, metricLabels, Event.isMutating]

/-- C1 witness: the hypotheses of applyConf_noop_frame hold at envNoop. -/
theorem applyConf_noop_frame_witness :
    (applyConf envNoop false).2 = none ∧
    metricLabels (applyConf envNoop false).1 = ["noop"] ∧
    ∀ e ∈ (applyConf envNoop false).1, Event.isMutating e = false :=
  applyConf_noop_frame envNoop rfl

/-- The pipeline phase an event belongs to: 1 = parity check, 2 = address
reconciliation, 3 = iptables reconciliation, 4 = the IPVS call, 5 = the
final Reconfigure metric sample.  Events that occur in more than one phase
(IP.Get, log lines) or only outside applies (teardown calls) get none. -/
def stepRank : Event → Option Nat
  | Event.checkConfigParity _ => some 1
  | Event.ipDel _ => some 2
  | Event.ipAdd _ => some 2
  | Event.advertiseMacAddress _ => some 2
  | Event.setMTU => some 2
  | Event.iptSave => some 3
  | Event.iptGenerate => some 3
  | Event.iptMerge => some 3
  | Event.iptRestore => some 3
  | Event.iptablesWriteFailureMetric _ => some 3
  | Event.writeFile _ _ _ => some 3
  | Event.setIPVS => some 4
  | Event.reconfigureMetric _ => some 5
  | _ => none

/-- The phases of the ranked events of a trace, in trace order. -/
def phaseOrder (tr : List Event) : List Nat := tr.filterMap stepRank

theorem phaseOrder_append (l₁ l₂ : List Event) :
    phaseOrder (l₁ ++ l₂) = phaseOrder l₁ ++ phaseOrder l₂ := by
  simp [phaseOrder]

theorem mem_phaseOrder_of_mem {tr : List Event} {e : Event} {n : Nat}
    (he : e ∈ tr) (hr : stepRank e = some n) : n ∈ phaseOrder tr :=
  List.mem_filterMap.mpr ⟨e, he, hr⟩

theorem not_mem_of_rank {tr : List Event} {e : Event} {n k : Nat}
    (hr : stepRank e = some n) (hall : ∀ m ∈ phaseOrder tr, m = k) (hnk : n ≠ k) :
    e ∉ tr :=
  fun he => hnk (hall n (mem_phaseOrder_of_mem he hr))

theorem pairwise_const_prepend {l₁ l₂ : List Nat} {j : Nat}
    (h₁ : ∀ n ∈ l₁, n = j)
    (h₂ : List.Pairwise (fun a b => a ≤ b) l₂) (hlb : ∀ n ∈ l₂, j ≤ n) :
    List.Pairwise (fun a b => a ≤ b) (l₁ ++ l₂) ∧ ∀ n ∈ l₁ ++ l₂, j ≤ n := by
  constructor
  · refine List.pairwise_append.mpr ⟨?_, h₂, ?_⟩
    · induction l₁ with
      | nil => exact List.Pairwise.nil
      | cons a l ih =>
        refine List.Pairwise.cons (fun b hb => ?_) (ih (fun n hn => h₁ n (List.mem_cons_of_mem a hn)))
        rw [h₁ a (List.mem_cons_self a l), h₁ b (List.mem_cons_of_mem a hb)]
    · intro a ha b hb
      rw [h₁ a ha]
      exact hlb b hb
  · intro n hn
    rcases List.mem_append.mp hn with h | h
    · rw [h₁ n h]
    · exact hlb n h

theorem processRemovals_cons_err (env : Env) (addr : String) (rest : List String)
    {e : String} (h : env.delErr addr = some e) :
    processRemovals env (addr :: rest) =
      ([Event.logLine ("deleting " ++ addr), Event.ipDel addr], some e) := by
  simp [processRemovals, h]

theorem processRemovals_cons_ok (env : Env) (addr : String) (rest : List String)
    (h : env.delErr addr = none) :
    processRemovals env (addr :: rest) =
      (Event.logLine ("deleting " ++ addr) :: Event.ipDel addr ::
         (processRemovals env rest).1,
       (processRemovals env rest).2) := by
  rcases hpr : processRemovals env rest with ⟨tr, r⟩
  simp [processRemovals, h, hpr]

theorem phaseOrder_processRemovals (env : Env) (l : List String) :
    ∀ n ∈ phaseOrder (processRemovals env l).1, n = 2 := by
  induction l with
  | nil => simp [processRemovals, phaseOrder]
  | cons addr rest ih =>
    cases hdel : env.delErr addr with
    | some e =>
      rw [processRemovals_cons_err env addr rest hdel]
      simp [phaseOrder, stepRank]
    | none =>
      rw [processRemovals_cons_ok env addr rest hdel]
      intro n hn
      simp only [phaseOrder, List.filterMap_cons, stepRank] at hn
      rcases List.mem_cons.mp hn with h | h
      · exact h
      · exact ih n h

theorem phaseOrder_additionEvents (env : Env) (addr : String) :
    ∀ n ∈ phaseOrder (additionEvents env addr), n = 2 := by
  cases hadd : env.addErr addr <;> cases hadv : env.advertiseErr addr <;>
    simp [additionEvents, hadd, hadv, phaseOrder, stepRank]

theorem phaseOrder_processAdditions (env : Env) (l : List String) :
    ∀ n ∈ phaseOrder (processAdditions env l), n = 2 := by
  induction l with
  | nil => simp [processAdditions, phaseOrder]
  | cons addr rest ih =>
    intro n hn
    rw [processAdditions, phaseOrder_append] at hn
    rcases List.mem_append.mp hn with h | h
    · exact phaseOrder_additionEvents env addr n h
    · exact ih n h

theorem phaseOrder_mtuEvents (env : Env) :
    ∀ n ∈ phaseOrder (mtuEvents env), n = 2 := by
  cases hmtu : env.mtuErr <;> simp [mtuEvents, hmtu, phaseOrder, stepRank]

theorem phaseOrder_setAddresses (env : Env) :
    ∀ n ∈ phaseOrder (setAddresses env).1, n = 2 := by
  cases hget : env.getErr with
  | some e => simp [setAddresses, hget, phaseOrder, stepRank]
  | none =>
    rcases hc : env.compare4 env.getV4 env.configKeys with ⟨removals, additions⟩
    rcases hpr : processRemovals env removals with ⟨remTrace, remErr⟩
    intro n hn
    cases remErr with
    | some e =>
      simp only [setAddresses, hget, hc, hpr] at hn
      simp only [phaseOrder, List.filterMap_cons, stepRank] at hn
      have := phaseOrder_processRemovals env removals
      rw [hpr] at this
      exact this n hn
    | none =>
      simp only [setAddresses, hget, hc, hpr] at hn
      simp only [phaseOrder, List.filterMap_cons, stepRank] at hn
      rw [show (List.filterMap stepRank
            (remTrace ++ processAdditions env additions ++ mtuEvents env)) =
          phaseOrder (remTrace ++ processAdditions env additions ++ mtuEvents env) from rfl,
        phaseOrder_append, phaseOrder_append] at hn
      rcases List.mem_append.mp hn with h | h
      · rcases List.mem_append.mp h with h2 | h2
        · have := phaseOrder_processRemovals env removals
          rw [hpr] at this
          exact this n h2
        · exact phaseOrder_processAdditions env additions n h2
      · exact phaseOrder_mtuEvents env n h

theorem phaseOrder_setIPTables (env : Env) :
    ∀ n ∈ phaseOrder (setIPTables env).1, n = 3 := by
  cases hs : env.saveRes with
  | error e => simp [setIPTables, hs, phaseOrder, stepRank]
  | ok existing =>
    cases hg : env.generateRes with
    | error e => simp [setIPTables, hs, hg, phaseOrder, stepRank]
    | ok generated =>
      cases hm : env.mergeRes generated existing with
      | error e => simp [setIPTables, hs, hg, hm, phaseOrder, stepRank]
      | ok merged =>
        cases hr : env.restoreErr merged with
        | some e =>
          cases hw : env.writeFileErr <;>
            simp [setIPTables, hs, hg, hm, hr, hw, phaseOrder, stepRank]
        | none => simp [setIPTables, hs, hg, hm, hr, phaseOrder, stepRank]

theorem phaseOrder_ipvsStep (env : Env) (tr : List Event) :
    phaseOrder (ipvsStep env tr).1 = phaseOrder tr ++ [4, 5] := by
  cases hi : env.setIPVSErr <;> simp [ipvsStep, hi, phaseOrder, stepRank]

theorem ipGet_mem_setAddresses (env : Env) : Event.ipGet ∈ (setAddresses env).1 := by
  cases hget : env.getErr with
  | some e => simp [setAddresses, hget]
  | none =>
    rcases hc : env.compare4 env.getV4 env.configKeys with ⟨removals, additions⟩
    rcases hpr : processRemovals env removals with ⟨remTrace, remErr⟩
    cases remErr <;> simp [setAddresses, hget, hc, hpr]

theorem iptSave_mem_setIPTables (env : Env) : Event.iptSave ∈ (setIPTables env).1 := by
  cases hs : env.saveRes with
  | error e => simp [setIPTables, hs]
  | ok existing =>
    cases hg : env.generateRes with
    | error e => simp [setIPTables, hs, hg]
    | ok generated =>
      cases hm : env.mergeRes generated existing with
      | error e => simp [setIPTables, hs, hg, hm]
      | ok merged =>
        cases hr : env.restoreErr merged with
        | some e => cases hw : env.writeFileErr <;> simp [setIPTables, hs, hg, hm, hr, hw]
        | none => simp [setIPTables, hs, hg, hm, hr]

theorem mem_ipvsStep (env : Env) (tr : List Event) {e : Event} :
    e ∈ (ipvsStep env tr).1 ↔
      e ∈ tr ∨ e = Event.setIPVS ∨
      (env.setIPVSErr ≠ none ∧ e = Event.reconfigureMetric "error") ∨
      (env.setIPVSErr = none ∧ e = Event.reconfigureMetric "complete") := by
  cases hi : env.setIPVSErr <;> simp [ipvsStep, hi]

theorem applyPipeline_sorted (env : Env) :
    List.Pairwise (fun a b => a ≤ b) (phaseOrder (applyPipeline env).1) ∧
    ∀ n ∈ phaseOrder (applyPipeline env).1, 2 ≤ n := by
  rcases ha : setAddresses env with ⟨aTr, aErr⟩
  have haPhase : ∀ n ∈ phaseOrder aTr, n = 2 := by
    have h2 := phaseOrder_setAddresses env
    rw [ha] at h2
    exact h2
  cases aErr with
  | some e =>
    simp only [applyPipeline, ha]
    rw [phaseOrder_append]
    exact pairwise_const_prepend haPhase (by decide) (by decide)
  | none =>
    by_cases hc : env.colocationMode = colocationModeIPTables
    · rcases hi : setIPTables env with ⟨iTr, iErr⟩
      have hiPhase : ∀ n ∈ phaseOrder iTr, n = 3 := by
        have h3 := phaseOrder_setIPTables env
        rw [hi] at h3
        exact h3
      cases iErr with
      | some e =>
        simp only [applyPipeline, ha, hi, if_pos hc]
        rw [List.append_assoc, phaseOrder_append, phaseOrder_append]
        have inner := @pairwise_const_prepend (phaseOrder iTr) (phaseOrder [Event.reconfigureMetric "error"]) 3 hiPhase (by decide) (by decide)
        exact pairwise_const_prepend haPhase inner.1
          (fun n hn => le_trans (by omega) (inner.2 n hn))
      | none =>
        simp only [applyPipeline, ha, hi, if_pos hc]
        rw [phaseOrder_ipvsStep, phaseOrder_append, List.append_assoc]
        have inner := @pairwise_const_prepend (phaseOrder iTr) [4, 5] 3 hiPhase (by decide) (by decide)
        exact pairwise_const_prepend haPhase inner.1
          (fun n hn => le_trans (by omega) (inner.2 n hn))
    · simp only [applyPipeline, ha, if_neg hc]
      rw [phaseOrder_ipvsStep]
      exact pairwise_const_prepend haPhase (by decide) (by decide)

theorem iptSave_mem_applyPipeline (env : Env) :
    Event.iptSave ∈ (applyPipeline env).1 ↔
      env.colocationMode = colocationModeIPTables ∧ (setAddresses env).2 = none := by
  rcases ha : setAddresses env with ⟨aTr, aErr⟩
  have haPhase : ∀ n ∈ phaseOrder aTr, n = 2 := by
    have h2 := phaseOrder_setAddresses env
    rw [ha] at h2
    exact h2
  have hnotA : Event.iptSave ∉ aTr := not_mem_of_rank rfl haPhase (by omega)
  cases aErr with
  | some e =>
    simp only [applyPipeline, ha]
    simp [hnotA]
  | none =>
    by_cases hc : env.colocationMode = colocationModeIPTables
    · rcases hi : setIPTables env with ⟨iTr, iErr⟩
      have hsave : Event.iptSave ∈ iTr := by
        have h3 := iptSave_mem_setIPTables env
        rw [hi] at h3
        exact h3
      cases iErr with
      | some e =>
        simp only [applyPipeline, ha, hi, if_pos hc]
        simp [hc, hsave]
      | none =>
        simp only [applyPipeline, ha, hi, if_pos hc]
        rw [mem_ipvsStep]
        simp [hc, hsave]
    · simp only [applyPipeline, ha, if_neg hc]
      rw [mem_ipvsStep]
      simp [hnotA, hc]

theorem setIPVS_mem_applyPipeline (env : Env) :
    Event.setIPVS ∈ (applyPipeline env).1 ↔
      (setAddresses env).2 = none ∧
      (env.colocationMode = colocationModeIPTables → (setIPTables env).2 = none) := by
  rcases ha : setAddresses env with ⟨aTr, aErr⟩
  have haPhase : ∀ n ∈ phaseOrder aTr, n = 2 := by
    have h2 := phaseOrder_setAddresses env
    rw [ha] at h2
    exact h2
  have hnotA : Event.setIPVS ∉ aTr := not_mem_of_rank rfl haPhase (by omega)
  cases aErr with
  | some e =>
    simp only [applyPipeline, ha]
    simp [hnotA]
  | none =>
    by_cases hc : env.colocationMode = colocationModeIPTables
    · rcases hi : setIPTables env with ⟨iTr, iErr⟩
      have hiPhase : ∀ n ∈ phaseOrder iTr, n = 3 := by
        have h3 := phaseOrder_setIPTables env
        rw [hi] at h3
        exact h3
      have hnotI : Event.setIPVS ∉ iTr := not_mem_of_rank rfl hiPhase (by omega)
      cases iErr with
      | some e =>
        simp only [applyPipeline, ha, hi, if_pos hc]
        simp [hnotA, hnotI, hc]
      | none =>
        simp only [applyPipeline, ha, hi, if_pos hc]
        rw [mem_ipvsStep]
        simp [hc]
    · simp only [applyPipeline, ha, if_neg hc]
      rw [mem_ipvsStep]
      simp [hc]

theorem ipGet_mem_applyPipeline (env : Env) :
    Event.ipGet ∈ (applyPipeline env).1 := by
  rcases ha : setAddresses env with ⟨aTr, aErr⟩
  have hget : Event.ipGet ∈ aTr := by
    have h2 := ipGet_mem_setAddresses env
    rw [ha] at h2
    exact h2
  cases aErr with
  | some e =>
    simp only [applyPipeline, ha]
    simp [hget]
  | none =>
    by_cases hc : env.colocationMode = colocationModeIPTables
    · rcases hi : setIPTables env with ⟨iTr, iErr⟩
      cases iErr with
      | some e =>
        simp only [applyPipeline, ha, hi, if_pos hc]
        simp [hget]
      | none =>
        simp only [applyPipeline, ha, hi, if_pos hc]
        rw [mem_ipvsStep]
        simp [hget]
    · simp only [applyPipeline, ha, if_neg hc]
      rw [mem_ipvsStep]
      simp [hget]

theorem applyConf_force_eq (env : Env) :
    applyConf env true =
      (Event.logLine "director: configuration parity ignored" :: (applyPipeline env).1,
       (applyPipeline env).2) := by
  rcases hp : applyPipeline env with ⟨tr, r⟩
  simp [applyConf, hp]

theorem hasParityCheck_eq_false_of_lb {tr : List Event}
    (h : ∀ n ∈ phaseOrder tr, 2 ≤ n) : hasParityCheck tr = false := by
  rw [hasParityCheck, List.any_eq_false]
  intro e he
  cases e <;> try simp
  case checkConfigParity addrs =>
    have h1 := h 1 (mem_phaseOrder_of_mem he rfl)
    omega

/-- C2: a forced applyConf makes no CheckConfigParity call, attempts
address reconciliation (IP.Get is reached), attempts setIPTables exactly
when colocation is iptables and address reconciliation did not fail, and
attempts IPVS.SetIPVS exactly when no earlier step failed; when address
reconciliation fails, neither later step runs. -/
theorem applyConf_force_pipeline (env : Env) :
    hasParityCheck (applyConf env true).1 = false ∧
    Event.ipGet ∈ (applyConf env true).1 ∧
    (Event.iptSave ∈ (applyConf env true).1 ↔
       env.colocationMode = colocationModeIPTables ∧ (setAddresses env).2 = none) ∧
    (Event.setIPVS ∈ (applyConf env true).1 ↔
       (setAddresses env).2 = none ∧
       (env.colocationMode = colocationModeIPTables → (setIPTables env).2 = none)) := by
  rw [applyConf_force_eq]
  refine ⟨?_, ?_, ?_, ?_⟩
  · have hlb := (applyPipeline_sorted env).2
    have := hasParityCheck_eq_false_of_lb hlb
    simp only [hasParityCheck] at this ⊢
    simp [this]
  · exact List.mem_cons_of_mem _ (ipGet_mem_applyPipeline env)
  · rw [List.mem_cons]
    simp only [iptSave_mem_applyPipeline env]
    simp
  · rw [List.mem_cons]
    simp only [setIPVS_mem_applyPipeline env]
    simp

/-- C8 counterexample: with colocation mode iptables and a parity check
that reports parity, a non-forced apply finishes with no fatal error from
any step, yet the setIPTables step is not executed — so the claim that
setIPTables runs if and only if colocation is iptables and no earlier step
returned a fatal error fails. -/
theorem applyConf_iptables_iff_cex :
    ({ envNoop with colocationMode := colocationModeIPTables } : Env).colocationMode
        = colocationModeIPTables ∧
    (applyConf { envNoop with colocationMode := colocationModeIPTables } false).2 = none ∧
    metricLabels (applyConf { envNoop with colocationMode := colocationModeIPTables } false).1
        = ["noop"] ∧
    Event.iptSave ∉
      (applyConf { envNoop with colocationMode := colocationModeIPTables } false).1 := by
  refine ⟨rfl, rfl, rfl, ?_⟩
  decide

/-- C8 amended: within a single apply the ranked pipeline phases occur in
nondecreasing order — parity check, then addresses, then iptables, then
the IPVS call, then the final Reconfigure sample — and setIPTables is
executed if and only if colocation is iptables, setAddresses did not fail,
and the apply was not cut short by the parity check (force, or the parity
check reported a mismatch without error). -/
theorem applyConf_step_order (env : Env) (force : Bool) :
    List.Pairwise (fun a b => a ≤ b) (phaseOrder (applyConf env force).1) ∧
    (Event.iptSave ∈ (applyConf env force).1 ↔
       env.colocationMode = colocationModeIPTables ∧ (setAddresses env).2 = none ∧
       (force = true ∨ env.parity (env.getV4 ++ env.getV6) = (false, none))) := by
  cases force with
  | true =>
    rw [applyConf_force_eq]
    constructor
    · have h := (applyPipeline_sorted env).1
      simp only [phaseOrder, List.filterMap_cons, stepRank]
      exact h
    · rw [List.mem_cons]
      simp only [iptSave_mem_applyPipeline env]
      simp [and_assoc]
  | false =>
    rcases hpar : env.parity (env.getV4 ++ env.getV6) with ⟨same, perr⟩
    cases perr with
    | some pe =>
      cases hget : env.getErr <;>
        constructor <;>
        simp [applyConf, hget, hpar, phaseOrder, stepRank, Prod.ext_iff]
    | none =>
      cases same with
      | true =>
        cases hget : env.getErr <;>
          constructor <;>
          simp [applyConf, hget, hpar, phaseOrder, stepRank, Prod.ext_iff]
      | false =>
        rcases hp : applyPipeline env with ⟨pTr, pErr⟩
        have hsorted := applyPipeline_sorted env
        have hsave := iptSave_mem_applyPipeline env
        rw [hp] at hsorted hsave
        cases hget : env.getErr with
        | none =>
          constructor
          · simp only [applyConf, hget, hpar, hp]
            simp only [phaseOrder, List.filterMap_cons, List.filterMap_append, stepRank]
            try simp only [List.nil_append, List.singleton_append]
            refine List.Pairwise.cons (fun b hb => ?_) hsorted.1
            exact le_trans (by omega) (hsorted.2 b hb)
          · simp only [applyConf, hget, hpar, hp]
            simp [hsave, and_assoc]
        | some ge =>
          constructor
          · simp only [applyConf, hget, hpar, hp]
            simp only [phaseOrder, List.filterMap_cons, List.filterMap_append, stepRank]
            try simp only [List.nil_append, List.singleton_append]
            refine List.Pairwise.cons (fun b hb => ?_) hsorted.1
            exact le_trans (by omega) (hsorted.2 b hb)
          · simp only [applyConf, hget, hpar, hp]
            simp [hsave, and_assoc]

/-- C10: in a non-forced apply, a failing IP.Get is only logged:
CheckConfigParity is still called on exactly the address lists the failed
IP.Get returned, and the apply proceeds on the parity verdict — success on
parity, the pipeline result on a mismatch — instead of aborting. -/
theorem applyConf_get_error_soft (env : Env) (e : String)
    (hget : env.getErr = some e) :
    Event.checkConfigParity (env.getV4 ++ env.getV6) ∈ (applyConf env false).1 ∧
    Event.logLine ("director: error creating interface: " ++ e) ∈ (applyConf env false).1 ∧
    (env.parity (env.getV4 ++ env.getV6) = (true, none) → (applyConf env false).2 = none) ∧
    (env.parity (env.getV4 ++ env.getV6) = (false, none) →
       (applyConf env false).2 = (applyPipeline env).2) := by
  rcases hpar : env.parity (env.getV4 ++ env.getV6) with ⟨same, perr⟩
  rcases hp : applyPipeline env with ⟨pTr, pErr⟩
  cases perr with
  | some pe =>
    refine ⟨?_, ?_, ?_, ?_⟩ <;> simp [applyConf, hget, hpar, Prod.ext_iff]
  | none =>
    cases same <;>
      refine ⟨?_, ?_, ?_, ?_⟩ <;> simp [applyConf, hget, hpar, hp, Prod.ext_iff]

/-- C10 witness: the hypotheses of applyConf_get_error_soft hold at a
concrete environment whose IP.Get fails. -/
theorem applyConf_get_error_soft_witness :
    Event.checkConfigParity
        (({ envNoop with getErr := some "link down" } : Env).getV4 ++
         ({ envNoop with getErr := some "link down" } : Env).getV6) ∈
      (applyConf { envNoop with getErr := some "link down" } false).1 ∧
    Event.logLine ("director: error creating interface: " ++ "link down") ∈
      (applyConf { envNoop with getErr := some "link down" } false).1 ∧
    (({ envNoop with getErr := some "link down" } : Env).parity
        (({ envNoop with getErr := some "link down" } : Env).getV4 ++
         ({ envNoop with getErr := some "link down" } : Env).getV6) = (true, none) →
      (applyConf { envNoop with getErr := some "link down" } false).2 = none) ∧
    (({ envNoop with getErr := some "link down" } : Env).parity
        (({ envNoop with getErr := some "link down" } : Env).getV4 ++
         ({ envNoop with getErr := some "link down" } : Env).getV6) = (false, none) →
      (applyConf { envNoop with getErr := some "link down" } false).2 =
        (applyPipeline { envNoop with getErr := some "link down" }).2) :=
  applyConf_get_error_soft { envNoop with getErr := some "link down" } "link down" rfl

theorem sublist_pair_middle {α : Type} (x y : α) (l₁ l₂ l₃ : List α) :
    List.Sublist [x, y] (l₁ ++ x :: (l₂ ++ y :: l₃)) := by
  induction l₁ with
  | nil =>
    simp only [List.nil_append]
    refine List.Sublist.cons₂ _ ?_
    induction l₂ with
    | nil =>
      simp only [List.nil_append]
      exact List.Sublist.cons₂ _ (List.nil_sublist _)
    | cons a t ih => exact List.Sublist.cons _ ih
  | cons a t ih => exact List.Sublist.cons _ ih

theorem sublist_additionEvents (env : Env) (addr : String) :
    List.Sublist [Event.ipAdd addr, Event.advertiseMacAddress addr]
      (additionEvents env addr) := by
  cases hadd : env.addErr addr with
  | none =>
    cases hadv : env.advertiseErr addr with
    | none =>
      simp only [additionEvents, hadd, hadv]
      exact sublist_pair_middle _ _ [Event.logLine ("adding " ++ addr)] [] []
    | some e3 =>
      simp only [additionEvents, hadd, hadv]
      exact sublist_pair_middle _ _ [Event.logLine ("adding " ++ addr)] []
        [Event.logLine ("director: error setting gratuitous arp. this is most likely due to the VIP not being present on the interface. " ++ e3)]
  | some e2 =>
    cases hadv : env.advertiseErr addr with
    | none =>
      simp only [additionEvents, hadd, hadv]
      exact sublist_pair_middle _ _ [Event.logLine ("adding " ++ addr)]
        [Event.logLine ("director: error adding adapter: " ++ addr ++ " " ++ e2)] []
    | some e3 =>
      simp only [additionEvents, hadd, hadv]
      exact sublist_pair_middle _ _ [Event.logLine ("adding " ++ addr)]
        [Event.logLine ("director: error adding adapter: " ++ addr ++ " " ++ e2)]
        [Event.logLine ("director: error setting gratuitous arp. this is most likely due to the VIP not being present on the interface. " ++ e3)]

theorem sublist_processAdditions (env : Env) {addr : String} {l : List String}
    (h : addr ∈ l) :
    List.Sublist [Event.ipAdd addr, Event.advertiseMacAddress addr]
      (processAdditions env l) := by
  induction l with
  | nil => cases h
  | cons a rest ih =>
    rw [processAdditions]
    rcases List.mem_cons.mp h with heq | h2
    · subst heq
      exact (sublist_additionEvents env _).trans (List.sublist_append_left _ _)
    · exact (ih h2).trans (List.sublist_append_right _ _)

theorem ipAdd_not_mem_processRemovals (env : Env) (l : List String) (a : String) :
    Event.ipAdd a ∉ (processRemovals env l).1 := by
  induction l with
  | nil => simp [processRemovals]
  | cons addr rest ih =>
    cases hdel : env.delErr addr with
    | some e =>
      rw [processRemovals_cons_err env addr rest hdel]
      simp
    | none =>
      rw [processRemovals_cons_ok env addr rest hdel]
      simp [ih]

/-- C3: in setAddresses, a failing IP.Del aborts the removal loop at once
with that error and the whole call fails with it before any IP.Add runs;
whereas the addition loop never fails the call, and every address of the
additions list gets its IP.Add followed later by its
IP.AdvertiseMacAddress, whether or not the Add succeeded. -/
theorem setAddresses_removal_fatal_addition_soft (env : Env) :
    (∀ e addr rest, env.delErr addr = some e →
        processRemovals env (addr :: rest) =
          ([Event.logLine ("deleting " ++ addr), Event.ipDel addr], some e)) ∧
    (∀ e, env.getErr = none →
        (processRemovals env (env.compare4 env.getV4 env.configKeys).1).2 = some e →
        (setAddresses env).2 = some e ∧
        ∀ a, Event.ipAdd a ∉ (setAddresses env).1) ∧
    (env.getErr = none →
        (processRemovals env (env.compare4 env.getV4 env.configKeys).1).2 = none →
        (setAddresses env).2 = none) ∧
    (∀ addr, env.getErr = none →
        (processRemovals env (env.compare4 env.getV4 env.configKeys).1).2 = none →
        addr ∈ (env.compare4 env.getV4 env.configKeys).2 →
        List.Sublist [Event.ipAdd addr, Event.advertiseMacAddress addr]
          (setAddresses env).1) := by
  refine ⟨fun e addr rest h => processRemovals_cons_err env addr rest h, ?_, ?_, ?_⟩
  · intro e hget hrem
    rcases hc : env.compare4 env.getV4 env.configKeys with ⟨removals, additions⟩
    rw [hc] at hrem
    rcases hpr : processRemovals env removals with ⟨remTr, remErr⟩
    rw [hpr] at hrem
    simp only at hrem
    subst hrem
    constructor
    · simp [setAddresses, hget, hc, hpr]
    · intro a
      have hnot := ipAdd_not_mem_processRemovals env removals a
      rw [hpr] at hnot
      simp [setAddresses, hget, hc, hpr, hnot]
  · intro hget hrem
    rcases hc : env.compare4 env.getV4 env.configKeys with ⟨removals, additions⟩
    rw [hc] at hrem
    rcases hpr : processRemovals env removals with ⟨remTr, remErr⟩
    rw [hpr] at hrem
    simp only at hrem
    subst hrem
    simp [setAddresses, hget, hc, hpr]
  · intro addr hget hrem hmem
    rcases hc : env.compare4 env.getV4 env.configKeys with ⟨removals, additions⟩
    rw [hc] at hrem hmem
    rcases hpr : processRemovals env removals with ⟨remTr, remErr⟩
    rw [hpr] at hrem
    simp only at hrem hmem
    subst hrem
    simp only [setAddresses, hget, hc, hpr]
    refine List.Sublist.cons _ ?_
    rw [show remTr ++ processAdditions env additions ++ mtuEvents env =
        (remTr ++ processAdditions env additions) ++ mtuEvents env from rfl]
    refine List.Sublist.trans ?_ (List.sublist_append_left _ _)
    exact (sublist_processAdditions env hmem).trans (List.sublist_append_right _ _)

/-- A concrete environment whose IPTables.Restore fails, with a failing
secondary file write. -/
def envRestoreFail : Env :=
  { envNoop with
    colocationMode := colocationModeIPTables
    parity := fun _ => (false, none)
    saveRes := Except.ok ["existing-rule"]
    generateRes := Except.ok ["generated-rule"]
    mergeRes := fun _ _ => Except.ok ["merged-rule"]
    restoreErr := fun _ => some "iptables-restore: line 2 failed"
    bytesFromRules := fun rules => String.intercalate "\n" rules
    writeFileErr := some "disk full" }

/-- C4: when IPTables.Restore fails, setIPTables sets the
IptablesWriteFailure gauge to 1, writes /tmp/director-ruleset-err with
mode 0644 and content "ipvs restore error: <err>\n" followed by the merged
rule bytes, logs but does not propagate a failure of that write, and
returns the original Restore error; when Restore succeeds it sets the
gauge to 0 and returns success. -/
theorem setIPTables_restore_failure (env : Env)
    (existing generated merged : List String) (e : String)
    (hs : env.saveRes = Except.ok existing)
    (hg : env.generateRes = Except.ok generated)
    (hm : env.mergeRes generated existing = Except.ok merged) :
    (env.restoreErr merged = some e →
       (setIPTables env).2 = some e ∧
       Event.iptablesWriteFailureMetric 1 ∈ (setIPTables env).1 ∧
       Event.writeFile "/tmp/director-ruleset-err"
         ("ipvs restore error: " ++ e ++ "\n" ++ env.bytesFromRules merged) 0o644
         ∈ (setIPTables env).1 ∧
       (env.writeFileErr ≠ none →
          Event.logLine ("error writing to file; logging rules: " ++ env.bytesFromRules merged)
            ∈ (setIPTables env).1)) ∧
    (env.restoreErr merged = none →
       (setIPTables env).2 = none ∧
       Event.iptablesWriteFailureMetric 0 ∈ (setIPTables env).1) := by
  constructor
  · intro hr
    cases hw : env.writeFileErr <;>
      refine ⟨?_, ?_, ?_, ?_⟩ <;>
      simp [setIPTables, hs, hg, hm, hr, hw, createErrorLog]
  · intro hr
    constructor <;> simp [setIPTables, hs, hg, hm, hr]

/-- C4 witness: the hypotheses of setIPTables_restore_failure hold at
envRestoreFail. -/
theorem setIPTables_restore_failure_witness :
    (envRestoreFail.restoreErr ["merged-rule"] = some "iptables-restore: line 2 failed" →
       (setIPTables envRestoreFail).2 = some "iptables-restore: line 2 failed" ∧
       Event.iptablesWriteFailureMetric 1 ∈ (setIPTables envRestoreFail).1 ∧
       Event.writeFile "/tmp/director-ruleset-err"
         ("ipvs restore error: " ++ "iptables-restore: line 2 failed" ++ "\n" ++
          envRestoreFail.bytesFromRules ["merged-rule"]) 0o644
         ∈ (setIPTables envRestoreFail).1 ∧
       (envRestoreFail.writeFileErr ≠ none →
          Event.logLine ("error writing to file; logging rules: " ++
              envRestoreFail.bytesFromRules ["merged-rule"])
            ∈ (setIPTables envRestoreFail).1)) ∧
    (envRestoreFail.restoreErr ["merged-rule"] = none →
       (setIPTables envRestoreFail).2 = none ∧
       Event.iptablesWriteFailureMetric 0 ∈ (setIPTables envRestoreFail).1) :=
  setIPTables_restore_failure envRestoreFail
    ["existing-rule"] ["generated-rule"] ["merged-rule"]
    "iptables-restore: line 2 failed" (by rfl) (by rfl) (by rfl)

/-- C7: cleanup always performs all three teardown actions — iptables
flush, IP teardown, IPVS teardown — without short-circuiting; it returns
nil exactly when all three succeeded, each failure contributes its message
to the accumulated list, and otherwise the joined error renders that whole
list. -/
theorem cleanup_accumulates (env : CleanupEnv) :
    (cleanup env).1 = [Event.iptFlush, Event.ipTeardown, Event.ipvsTeardown] ∧
    ((cleanup env).2 = none ↔
       env.flushErr = none ∧ env.ipTeardownErr = none ∧ env.ipvsTeardownErr = none) ∧
    (∀ e, env.flushErr = some e →
       ("cleanup - failed to flush iptables - " ++ e) ∈ cleanupErrs env) ∧
    (∀ e, env.ipTeardownErr = some e →
       ("cleanup - failed to remove ip addresses - " ++ e) ∈ cleanupErrs env) ∧
    (∀ e, env.ipvsTeardownErr = some e →
       ("cleanup - failed to remove existing ipvs config - " ++ e) ∈ cleanupErrs env) ∧
    ((cleanup env).2 = none ∨
       (cleanup env).2 = some ("director: " ++ renderGoStringSlice (cleanupErrs env))) := by
  cases hf : env.flushErr <;> cases hip : env.ipTeardownErr <;> cases hv : env.ipvsTeardownErr <;>
    simp [cleanup, cleanupErrs, hf, hip, hv]

/-- A Start environment in which IP.SetARP and IPTables.Flush succeed. -/
def startEnvOK : StartEnv := { setARPErr := none, flushErr := none }

/-- A cleanup environment in which all three teardown calls succeed. -/
def cleanupEnvOK : CleanupEnv :=
  { flushErr := none, ipTeardownErr := none, ipvsTeardownErr := none }

/-- C5: against the claim (and the comment in the code that a director "can
only be started once"), the isStarted flag goes false→true a second time:
after a successful Start and a successful Stop, a second Start succeeds
instead of returning an error, because Stop resets isStarted to false. -/
theorem start_after_stop_succeeds :
    (Start startEnvOK (newDirector colocationModeDisabled false)).2 = none ∧
    (Stop cleanupEnvOK
        (Start startEnvOK (newDirector colocationModeDisabled false)).1).2
      = StopOutcome.ok none ∧
    (Stop cleanupEnvOK
        (Start startEnvOK (newDirector colocationModeDisabled false)).1).1.isStarted
      = false ∧
    (Start startEnvOK
        (Stop cleanupEnvOK
          (Start startEnvOK (newDirector colocationModeDisabled false)).1).1).2
      = none ∧
    (Start startEnvOK
        (Stop cleanupEnvOK
          (Start startEnvOK (newDirector colocationModeDisabled false)).1).1).1.isStarted
      = true := by
  decide

/-- C9: Stop on a freshly constructed director, on which Start has never
run, reaches the unconditional d.cxlWatch() call with the cancel function
still unassigned and panics: Stop presumes a completed Start. -/
theorem stop_before_start_panics (env : CleanupEnv) (mode : String) (doCleanup : Bool) :
    (Stop env (newDirector mode doCleanup)).2 = StopOutcome.nilFunctionPanic := rfl

theorem pump_no_exit_aux (cancelled : Bool) (n : Nat) :
    (pumpRun cancelled pumpStart n).pc ≠ PumpPoint.exited := by
  induction n with
  | zero => simp [pumpRun, pumpStart]
  | succ n ih =>
    rw [pumpRun]
    rcases hs : pumpRun cancelled pumpStart n with ⟨pc, chanFull⟩
    rw [hs] at ih
    cases pc with
    | exited => exact absurd rfl ih
    | ticking => simp [pumpStep]
    | sending =>
      cases chanFull <;> cases cancelled <;> simp [pumpStep]

/-- C6 counterexample: the pump loop of causePeriodicWatcherSync does not
exit after the watch context is cancelled — there is no number of steps
after which it has returned, because the loop body has no cancellation
branch at all. -/
theorem causePeriodicWatcherSync_no_exit_cex : ¬ pumpEverExits true :=
  fun h => Exists.elim h (fun n hn => pump_no_exit_aux true n hn)

/-- C6 amended: the pump loop never exits, whether or not the watch scope
has been cancelled; after cancellation it keeps looping (and, once the
capacity-1 node channel is full, blocks forever in the send) instead of
terminating. -/
theorem causePeriodicWatcherSync_never_exits (cancelled : Bool) (n : Nat) :
    (pumpRun cancelled pumpStart n).pc ≠ PumpPoint.exited :=
  pump_no_exit_aux cancelled n

end Director
